import Mathlib

/-!
# Verification of the LifeLine context-management core

Shallow embedding of the token-budget / memory-ranking / agent-summarizer
subsystems of the LifeLine backend
(`backend/LifeLine/api/utils/{token_utils,memory_utils,prompts,agent_utils}.py`,
`constants.py`), together with proofs and refutations of the frozen claims
about them.

Modelling conventions:
* Python `int` arithmetic is `Nat`/`Int`; `s[a:b]` slicing and `len` act on
  characters, matching Python string semantics for the ASCII data involved.
* The tiktoken encoder is an external library (not repository code).  It is
  modelled as an abstract `Encoding` bundle whose contract fields record the
  behaviour the repository's spec relies on ("token-exact" encode/decode).
  A concrete character-level instance `charEncoding` witnesses the contract.
* LLM / embedding / DB calls are external collaborators; they enter as
  oracle arguments (`String → Except String String`, save callbacks, …); an
  `Except` error models the Python call raising an exception.
-/

set_option maxHeartbeats 1000000
set_option maxRecDepth 8000

namespace LifeLine

/-- Abstract tokenizer, modelled from the spec's TokenCounter contract
(tiktoken is an external dependency, not repository code):
`encode`/`decode` convert between text and a token array; decoding a full
encoding restores the text, re-encoding decoded tokens never inflates the
count (the spec requires truncation to be "exact (token-accurate)"),
token counts are subadditive under concatenation, and a token covers at
least one character. -/
structure Encoding (τ : Type) where
  encode : String → List τ
  decode : List τ → String
  decode_encode : ∀ s, decode (encode s) = s
  reencode_le : ∀ l, (encode (decode l)).length ≤ l.length
  encode_append_le : ∀ s t, (encode (s ++ t)).length ≤ (encode s).length + (encode t).length
  encode_le_length : ∀ s, (encode s).length ≤ s.length

/-- Character-level instance of the tokenizer contract: every character is
one token.  Used to evaluate the development on concrete inputs. -/
def charEncoding : Encoding Char where
  encode s := s.data
  decode l := String.mk l
  decode_encode s := rfl
  reencode_le l := le_refl _
  encode_append_le s t := by
    have h : (s ++ t).data = s.data ++ t.data := rfl
    simp [h]
  encode_le_length s := le_of_eq rfl

theorem charEncoding_encode_length (s : String) :
    (charEncoding.encode s).length = s.length := rfl

/-! ## Constants (`api/utils/constants.py`) -/

def TOKEN_SAFETY_MARGIN_NUM : Nat := 1   -- TOKEN_SAFETY_MARGIN = 0.1 = 1/10
def TOKEN_SAFETY_MARGIN_DEN : Nat := 10
def CHUNK_OVERLAP_TOKENS : Nat := 200
def MIN_RESPONSE_TOKENS : Nat := 2000
def SYSTEM_PROMPT_BUFFER_TOKENS : Nat := 1000
def AGENT_MAX_CHUNK_TOKENS : Nat := 75000
def AGENT_MODERATE_CONTENT_TOKENS : Nat := 8000
def MAX_CHUNK_TOKENS_CAP : Nat := 20000
def AGENT_RESUMMARY_THRESHOLD_TOKENS : Nat := 50000
def MEMORY_SIMILARITY_WEIGHT : ℚ := 6/10
def MEMORY_IMPORTANCE_WEIGHT : ℚ := 3/10
def MEMORY_RECENCY_WEIGHT : ℚ := 1/10
def MEMORY_RECENCY_DAYS_DIVISOR : ℚ := 30
def MIN_SIMILARITY_THRESHOLD : ℚ := 3/10

/-- `MODEL_CONTEXT_LIMITS`: model id → context window (tokens). -/
def MODEL_CONTEXT_LIMITS : List (String × Nat) :=
  [("gpt-5", 1000000), ("gpt-5-turbo", 1000000),
   ("gpt-4.1", 1000000), ("gpt-4.1-turbo", 1000000), ("gpt-4.1-nano", 128000),
   ("gpt-4o", 128000), ("gpt-4o-mini", 128000), ("gpt-4o-audio-preview", 128000),
   ("gpt-4-turbo", 128000), ("gpt-4-turbo-preview", 128000),
   ("gpt-4", 8192), ("gpt-4-32k", 32768),
   ("gpt-3.5-turbo", 16385), ("gpt-3.5-turbo-16k", 16385)]

/-- `MODEL_CONTEXT_LIMITS.get(model, 128000)`. -/
def contextLimitFor (model : String) : Nat :=
  ((MODEL_CONTEXT_LIMITS.lookup model).getD 128000)

/-! ## `TokenManager` (`api/utils/token_utils.py`) -/

/-- The immutable per-model quantities computed in `TokenManager.__init__`. -/
structure TokenManager where
  model : String
  context_limit : Nat
  safe_context_limit : Nat
  max_chunk_tokens : Nat
  moderate_content_tokens : Nat
deriving Repr, DecidableEq

/-- `create_token_manager` / `TokenManager.__init__`.
`int(context_limit * (1 - TOKEN_SAFETY_MARGIN))` is float arithmetic in the
source; for every limit in `MODEL_CONTEXT_LIMITS` (and the 128000 default)
it equals `context_limit * 9 / 10` in exact integer arithmetic, which is the
form used here. -/
def create_token_manager (model : String) : TokenManager :=
  let cl := contextLimitFor model
  let safe := cl * (TOKEN_SAFETY_MARGIN_DEN - TOKEN_SAFETY_MARGIN_NUM) / TOKEN_SAFETY_MARGIN_DEN
  { model := model
    context_limit := cl
    safe_context_limit := safe
    max_chunk_tokens := min AGENT_MAX_CHUNK_TOKENS (safe / 4)
    moderate_content_tokens := AGENT_MODERATE_CONTENT_TOKENS }

variable {τ : Type}

/-- `TokenManager.count_tokens`: `0` for empty text, else the encoder's token
count.  (The tokenizer-failure fallback `len(text)//4` is unreachable for a
total encoder and is not modelled.) -/
def count_tokens (e : Encoding τ) (text : String) : Nat :=
  if text = "" then 0 else (e.encode text).length

/-- A message as seen by the agent loop (`langchain` message classes):
role discriminates `SystemMessage` / `HumanMessage` / `AIMessage` (with its
tool-call list) / `ToolMessage` (with its `tool_call_id`). -/
inductive AMsg where
  | system (content : String)
  | human (content : String)
  | ai (content : String) (toolCalls : List String)
  | tool (content : String) (toolCallId : String)
deriving Repr, DecidableEq

def AMsg.content : AMsg → String
  | .system c => c
  | .human c => c
  | .ai c _ => c
  | .tool c _ => c

/-- The content-token contribution of one message in
`count_message_tokens`: counted only when the content is truthy
(non-empty), mirroring `if hasattr(message, 'content') and message.content`. -/
def msgTok (e : Encoding τ) (m : AMsg) : Nat :=
  if m.content = "" then 0 else count_tokens e m.content

/-- `TokenManager.count_message_tokens`: per-message content tokens plus 4
overhead tokens per message. -/
def count_message_tokens (e : Encoding τ) (messages : List AMsg) : Nat :=
  messages.foldl (fun total m => total + msgTok e m + 4) 0

/-- `TokenManager.get_available_tokens`. -/
def get_available_tokens (tm : TokenManager) (system_tokens history_tokens : Nat) : Nat :=
  let used_tokens := system_tokens + history_tokens + MIN_RESPONSE_TOKENS + SYSTEM_PROMPT_BUFFER_TOKENS
  let available : Int := (tm.safe_context_limit : Int) - used_tokens
  if available ≤ 0 then
    min 5000 (tm.safe_context_limit / 10)  -- emergency fallback
  else
    available.toNat

/-- `TokenManager.should_chunk_content`. -/
def should_chunk_content (e : Encoding τ) (tm : TokenManager)
    (content : String) (system_tokens history_tokens : Nat) : Bool :=
  let content_tokens := count_tokens e content
  let available_tokens := get_available_tokens tm system_tokens history_tokens
  decide (available_tokens < content_tokens) || decide (tm.max_chunk_tokens < content_tokens)

/-- `TokenManager.should_summarize_moderate_content`. -/
def should_summarize_moderate_content (e : Encoding τ) (tm : TokenManager)
    (content : String) : Bool :=
  decide (tm.moderate_content_tokens < count_tokens e content)

/-- `TokenManager._token_position_to_char` (happy path of the tiktoken
call; the `token_position * 4` error fallback is unreachable for a total
encoder). -/
def token_position_to_char (e : Encoding τ) (text : String) (token_position : Nat) : Nat :=
  if token_position = 0 then 0
  else
    let tokens := e.encode text
    if tokens.length ≤ token_position then text.length
    else (e.decode (tokens.take token_position)).length

/-- `TokenManager.truncate_to_tokens`. -/
def truncate_to_tokens (e : Encoding τ) (text : String) (max_tokens : Nat) : String :=
  if text = "" then text
  else if count_tokens e text ≤ max_tokens then text
  else e.decode ((e.encode text).take max_tokens)

/-- Python slice `s[a:b]` (character indices, `a ≤ b` in all call sites). -/
def pySlice (s : String) (a b : Nat) : String :=
  String.mk ((s.data.drop a).take (b - a))

/-- Python slice `s[:n]` (character indices). -/
def pyTake (s : String) (n : Nat) : String :=
  String.mk (s.data.take n)

theorem pyTake_length (s : String) (n : Nat) : (pyTake s n).length = min n s.length := by
  show (s.data.take n).length = min n s.length
  exact List.length_take n s.data

/-- Python `str.strip()`: leading and trailing whitespace removed. -/
def pyStrip (s : String) : String :=
  String.mk (((s.data.dropWhile Char.isWhitespace).reverse.dropWhile Char.isWhitespace).reverse)

/-- Python `str.split(sep)` for a non-empty separator, on character lists:
non-overlapping left-to-right matches, accumulating the current field. -/
def pySplitList (sep : List Char) : List Char → List Char → List (List Char)
  | [], cur => [cur]
  | c :: rest, cur =>
    if sep.isPrefixOf (c :: rest) then
      cur :: pySplitList sep (rest.drop (sep.length - 1)) []
    else pySplitList sep rest (cur ++ [c])
termination_by l _ => l.length
decreasing_by
  · refine Nat.lt_succ_of_le ?_
    rw [List.length_drop]
    exact Nat.sub_le _ _
  · exact Nat.lt_succ_of_le le_rfl

/-- Python `str.split(sep)` (the separators used here are non-empty). -/
def pySplit (s sep : String) : List String :=
  (pySplitList sep.data s.data []).map String.mk

/-- Loop body shared by `chunk_content`: one chunk from token position `tp`,
including the back-overlap taken when this is not the first chunk. -/
def chunkAt (e : Encoding τ) (content : String) (eff tp : Nat) (first : Bool) : String :=
  let start_char := token_position_to_char e content tp
  let end_char := token_position_to_char e content (tp + eff)
  let chunk := pySlice content start_char end_char
  if first || tp = 0 then chunk
  else
    let overlap_tokens := min CHUNK_OVERLAP_TOKENS tp
    let overlap_start_char := token_position_to_char e content (tp - overlap_tokens)
    pySlice content overlap_start_char start_char ++ chunk

/-- The `while tokens_processed < content_tokens` loop of
`TokenManager.chunk_content`; each pass advances `tokens_processed` by
`eff > 0`, and processing stops once more than 50 chunks have been emitted. -/
def chunkContentLoop (e : Encoding τ) (content : String) (ct eff : Nat) (heff : 0 < eff)
    (tp : Nat) (chunks : List String) : List String :=
  if h : tp < ct then
    let chunk := chunkAt e content eff tp chunks.isEmpty
    let chunks' := chunks ++ [chunk]
    if 50 < chunks'.length then chunks'
    else chunkContentLoop e content ct eff heff (tp + eff) chunks'
  else chunks
termination_by ct - tp
decreasing_by
  exact Nat.sub_lt_sub_left h (Nat.lt_add_of_pos_right heff)

/-- `TokenManager.chunk_content`. -/
def chunk_content (e : Encoding τ) (tm : TokenManager)
    (content : String) (system_tokens history_tokens : Nat) : List String :=
  let content_tokens := count_tokens e content
  -- `available_tokens` is computed (and logged) but unused by the chunking itself
  let _available_tokens := get_available_tokens tm system_tokens history_tokens
  let chunk_size_tokens := min tm.max_chunk_tokens MAX_CHUNK_TOKENS_CAP
  let chunk_size_tokens := if chunk_size_tokens ≤ CHUNK_OVERLAP_TOKENS then 5000 else chunk_size_tokens
  let effective_chunk_tokens := max (chunk_size_tokens - CHUNK_OVERLAP_TOKENS) 1000
  chunkContentLoop e content content_tokens effective_chunk_tokens
    (lt_of_lt_of_le (by norm_num) (le_max_right _ _)) 0 []

/-- The `while` loop of `TokenManager.chunk_content_with_size`: stops before
appending a whitespace-only chunk, and once more than 100 chunks exist. -/
def chunkWithSizeLoop (e : Encoding τ) (content : String) (ct eff : Nat) (heff : 0 < eff)
    (tp : Nat) (chunks : List String) : List String :=
  if h : tp < ct then
    let start_char := token_position_to_char e content tp
    let end_char := token_position_to_char e content (tp + eff)
    let chunk := pySlice content start_char end_char
    if pyStrip chunk = "" then chunks
    else
      let chunks' := chunks ++ [chunk]
      if 100 < chunks'.length then chunks'
      else chunkWithSizeLoop e content ct eff heff (tp + eff) chunks'
  else chunks
termination_by ct - tp
decreasing_by
  exact Nat.sub_lt_sub_left h (Nat.lt_add_of_pos_right heff)

/-- `TokenManager.chunk_content_with_size`. -/
def chunk_content_with_size (e : Encoding τ) (content : String) (chunk_size_tokens : Nat) :
    List String :=
  let content_tokens := count_tokens e content
  if content_tokens ≤ chunk_size_tokens then [content]
  else
    let effective_chunk_tokens := max (chunk_size_tokens - CHUNK_OVERLAP_TOKENS) 1000
    chunkWithSizeLoop e content content_tokens effective_chunk_tokens
      (lt_of_lt_of_le (by norm_num) (le_max_right _ _)) 0 []

/-! ## Conversation-history formatting (`api/utils/prompts.py`) -/

/-- Python `str.title()` for the ASCII role strings used here: an alphabetic
character is uppercased when it follows a non-alphabetic character (or starts
the string) and lowercased otherwise. -/
def pyTitle (s : String) : String :=
  String.mk ((s.data.foldl
    (fun (acc : List Char × Bool) c =>
      if c.isAlpha then
        (acc.1 ++ [if acc.2 then c.toLower else c.toUpper], true)
      else (acc.1 ++ [c], false))
    ([], false)).1)

/-- A history entry handed to `format_conversation_history`: the message
dict's `role` and `content`, and — for the `created_at` timestamp — the
`"%H:%M"` rendering when the timestamp is a string that `datetime`
(an external collaborator) parses, else `none`. -/
structure HMsg where
  role : String
  content : String
  timeStr : Option String
deriving Repr, DecidableEq

/-- The formatted line built for one history message (with the stripped
content, and the `[HH:MM]` prefix exactly when the timestamp parsed). -/
def formatMsg (m : HMsg) : String :=
  match m.timeStr with
  | some t => "[" ++ t ++ "] " ++ pyTitle m.role ++ ": " ++ pyStrip m.content
  | none => pyTitle m.role ++ ": " ++ pyStrip m.content

/-- The reversed-iteration accumulation loop of
`format_conversation_history`: `msgs` is the history already reversed
(most recent first); empty-content messages are skipped (`continue`),
the first message that would push the running token total past
`max_tokens` stops the loop (`break`), and accepted lines are prepended
(`formatted_messages.insert(0, ...)`) so the result is chronological. -/
def selectHistoryLoop (e : Encoding τ) (max_tokens : Nat) :
    List HMsg → Nat → List String → List String
  | [], _, acc => acc
  | m :: rest, total_tokens, acc =>
    if pyStrip m.content = "" then selectHistoryLoop e max_tokens rest total_tokens acc
    else
      let formatted_msg := formatMsg m
      let msg_tokens := (e.encode formatted_msg).length
      if max_tokens < total_tokens + msg_tokens then acc
      else selectHistoryLoop e max_tokens rest (total_tokens + msg_tokens) (formatted_msg :: acc)

/-- The chronological list of formatted lines retained by
`format_conversation_history`. -/
def selectHistory (e : Encoding τ) (messages : List HMsg) (max_tokens : Nat) : List String :=
  selectHistoryLoop e max_tokens messages.reverse 0 []

/-- `format_conversation_history` (tiktoken-available path; the encoder is
the function's own `encoding_for_model("gpt-4")` instance). -/
def format_conversation_history (e : Encoding τ) (messages : List HMsg) (max_tokens : Nat) :
    String :=
  if messages = [] then ""
  else String.intercalate "\n" (selectHistory e messages max_tokens)

/-- The non-empty-content messages of a history, each rendered by
`formatMsg` — the pool `format_conversation_history` selects from. -/
def formattedNonEmpty (msgs : List HMsg) : List String :=
  (msgs.filter (fun m => ¬ (pyStrip m.content = ""))).map formatMsg

/-! ## Memory ranking (`api/utils/memory_utils.py`)

Scores are modelled in `ℚ` (exact stand-in for Python floats); timestamps at
day granularity in `ℤ`, so `(now - memory.updated_at).days` is plain
subtraction. -/

/-- A `Memory` row, restricted to the fields `get_relevant_memories`
reads or writes. -/
structure Memory where
  id : Nat
  content : String
  importance_score : ℚ
  embedding : Option (List ℚ)
  access_count : Nat
  last_accessed_at : Option Int
  updated_at : Int
deriving Repr, DecidableEq

/-- `cosine_similarity`: `np.dot(a, b) / (np.linalg.norm(a) * np.linalg.norm(b))`.
`np.dot` raises `ValueError` on 1-D shape mismatch — the `Except` error case.
`np.linalg.norm` is a float square root; the numerical kernel `sqrtQ` is
passed in as the collaborator computing it. -/
def cosine_similarity (sqrtQ : ℚ → ℚ) (a b : List ℚ) : Except Unit ℚ :=
  if a.length = b.length then
    .ok ((List.zipWith (· * ·) a b).sum /
      (sqrtQ ((a.map (fun x => x * x)).sum) * sqrtQ ((b.map (fun x => x * x)).sum)))
  else .error ()

/-- `Memory.objects.filter(user=user, embedding__isnull=False)
.order_by("-importance_score", "-updated_at")`: the user's memories that
carry an embedding, importance descending then update time descending
(stable sort as deterministic tie-break). -/
def queryMemoriesWithEmbedding (store : List Memory) : List Memory :=
  (store.filter (fun m => m.embedding.isSome)).insertionSort
    (fun a b => b.importance_score < a.importance_score ∨
      (a.importance_score = b.importance_score ∧ b.updated_at ≤ a.updated_at))

/-- The composite relevance score:
`similarity*0.6 + importance*0.3 + (1 - recency_score)*0.1` with
`recency_score = min(1.0, (now - updated_at).days / 30.0)`. -/
def compositeScore (now : Int) (m : Memory) (similarity : ℚ) : ℚ :=
  let recency_score := min 1 (((now - m.updated_at : Int) : ℚ) / MEMORY_RECENCY_DAYS_DIVISOR)
  similarity * MEMORY_SIMILARITY_WEIGHT
    + m.importance_score * MEMORY_IMPORTANCE_WEIGHT
    + (1 - recency_score) * MEMORY_RECENCY_WEIGHT

/-- One iteration of the scoring loop of `get_relevant_memories`: the body of
the per-memory `try`/`except`.  `none` when the memory is skipped — because
the similarity computation raised (`except ...: continue`) or fell below the
threshold (`if similarity < min_similarity: continue`). -/
def scoreOne (sqrtQ : ℚ → ℚ) (query_embedding : List ℚ) (now : Int)
    (min_similarity : ℚ) (m : Memory) : Option (Memory × ℚ × ℚ) :=
  match m.embedding with
  | none => none  -- unreachable: candidates are pre-filtered to embedded ones
  | some emb =>
    match cosine_similarity sqrtQ query_embedding emb with
    | .error _ => none  -- per-memory `except`: log and continue
    | .ok similarity =>
      if similarity < min_similarity then none
      else some (m, similarity, compositeScore now m similarity)

/-- The scoring loop itself: candidates in iteration order, skipped ones
dropped. -/
def scoreCandidates (sqrtQ : ℚ → ℚ) (query_embedding : List ℚ) (now : Int)
    (min_similarity : ℚ) (memories : List Memory) : List (Memory × ℚ × ℚ) :=
  memories.filterMap (scoreOne sqrtQ query_embedding now min_similarity)

/-- The mutation applied to each returned memory by the access tracking:
`memory.access_count += 1; memory.last_accessed_at = timezone.now()`. -/
def touchAccess (m : Memory) (now : Int) : Memory :=
  { m with access_count := m.access_count + 1, last_accessed_at := some now }

/-- The access-tracking write-back: each returned memory gets
`access_count += 1` and `last_accessed_at = now` and is saved; a failing
`save` raises out of the loop (caught only by the function-level handler). -/
def writeBackAccess (save : Memory → Except Unit Unit) (now : Int) :
    List (Memory × ℚ × ℚ) → Except Unit (List Memory)
  | [] => .ok []
  | (m, _, _) :: rest =>
    let m2 := touchAccess m now
    match save m2 with
    | .error e => .error e
    | .ok _ => (writeBackAccess save now rest).map (fun l => m2 :: l)

/-- `get_relevant_memories` from the candidate list onward: the
`memories.exists()` emptiness check, per-memory scoring, the stable
descending sort on composite score (`list.sort(key=..., reverse=True)`),
`[:limit]`, and the write-back whose failure reaches the function-level
`except` that returns `[]`. -/
def rankFromCandidates (sqrtQ : ℚ → ℚ) (save : Memory → Except Unit Unit) (now : Int)
    (query_embedding : List ℚ) (limit : Nat) (min_similarity : ℚ)
    (memories : List Memory) : List Memory :=
  if memories = [] then []
  else
    let relevant := scoreCandidates sqrtQ query_embedding now min_similarity memories
    let sorted := relevant.insertionSort (fun a b => b.2.2 ≤ a.2.2)
    let top_memories := sorted.take limit
    match writeBackAccess save now top_memories with
    | .ok memory_objects => memory_objects
    | .error _ => []  -- function-level `except`: log the error, `return []`

/-- `get_relevant_memories(user, query, limit=5, min_similarity=0.3)`.
`query_embedding` is the embedding collaborator's result for the query. -/
def get_relevant_memories (sqrtQ : ℚ → ℚ) (save : Memory → Except Unit Unit) (now : Int)
    (query_embedding : List ℚ) (store : List Memory)
    (limit : Nat := 5) (min_similarity : ℚ := MIN_SIMILARITY_THRESHOLD) : List Memory :=
  rankFromCandidates sqrtQ save now query_embedding limit min_similarity
    (queryMemoriesWithEmbedding store)

/-! ## Agent summarizer (`api/utils/agent_utils.py`, `summarize_tool_output`)

LLM invocations are the oracle `llm : String → Except String String`
(prompt ↦ response text, or the raised exception's message).  The
parallel chunk fan-out recombines results in chunk-index order
(`asyncio.gather` preserves task order), so it is a `map` here; each chunk
task catches its own failure, which is why the `asyncio.run`-failure
sequential fallback is not modelled. -/

/-- First `HumanMessage` content found scanning `state["messages"][:-1]`
newest-first — the pattern used for `user_query` / minimal user content. -/
def firstHumanContent (msgs : List AMsg) : Option String :=
  msgs.dropLast.reverse.findSome? fun m =>
    match m with
    | .human c => some c
    | _ => none

/-- The `recent_history` accumulation loop (newest-first over
`state["messages"][:-1]`, stopping once 4 lines are collected). -/
def recentHistoryLoop : List AMsg → List String → List String
  | [], acc => acc
  | m :: rest, acc =>
    let acc' := match m with
      | .human c => acc ++ ["User: " ++ c]
      | .ai c toolCalls =>
        if toolCalls ≠ [] then
          acc ++ ["AI: " ++ ("AI decided to call tools: " ++ String.intercalate ", " toolCalls)]
        else if c ≠ "" then acc ++ ["AI: " ++ c]
        else acc
      | _ => acc
    if 4 ≤ acc'.length then acc' else recentHistoryLoop rest acc'

/-- `user_query = conversation_context.split('User: ')[-1] if 'User: ' in
conversation_context else 'about email data'` (the substring test is
equivalent to the split having more than one part). -/
def inferUserQuery (msgs : List AMsg) : String :=
  let recent_history := recentHistoryLoop msgs.dropLast.reverse []
  let conversation_context := String.intercalate "\n" recent_history.reverse
  let parts := pySplit conversation_context "User: "
  if 1 < parts.length then parts.getLastD "" else "about email data"

def chunkPrompt (user_query : String) (i total : Nat) (chunk : String) : String :=
  "You are analyzing email data for this user request: " ++ user_query ++ "\n\n"
    ++ "This is chunk " ++ toString (i + 1) ++ " of " ++ toString total
    ++ ". Extract and summarize key information:\n"
    ++ "1. Charges/amounts with dates and sources\n"
    ++ "2. Action items, deadlines, or important dates\n"
    ++ "3. Contact information or sender details\n"
    ++ "4. Any other relevant details for the user\x27s request\n\n"
    ++ "Chunk data:\n" ++ chunk ++ "\n\n"
    ++ "Provide a structured summary focusing on actionable information."

def consolidationPrompt (user_query combined_summary : String) : String :=
  "Consolidate these chunk summaries into a comprehensive but concise report for: "
    ++ user_query ++ "\n\n"
    ++ "Focus on:\n"
    ++ "1. All charges/amounts with dates (create a table if multiple)\n"
    ++ "2. Action items and deadlines\n"
    ++ "3. Key contacts and important information\n"
    ++ "4. Summary statistics and totals\n"
    ++ "5. If tool output includes telemetry (e.g., input_count, extracted_count, metrics.usage tokens, model, duration_ms), include a short header summarizing: number of emails processed, model, and token usage.\n\n"
    ++ "Chunk summaries:\n" ++ combined_summary ++ "\n\n"
    ++ "Provide a well-organized final summary."

def focusedPrompt (user_context tool_content : String) : String :=
  "User request: " ++ user_context ++ "\n\n"
    ++ "Summarize this tool output focusing on what the user needs:\n"
    ++ "1. Key charges/amounts with dates\n"
    ++ "2. Action items and deadlines\n"
    ++ "3. Important contacts or details\n"
    ++ "4. Summary statistics\n"
    ++ "5. If the tool output contains telemetry (input_count, extracted_count, metrics.usage tokens, model), start with a one-line header capturing those.\n\n"
    ++ "Tool output:\n" ++ tool_content ++ "\n\n"
    ++ "Provide a structured, comprehensive summary."

def minimalSystemChunked : String :=
  "You are LifeLine, a helpful AI assistant. "
    ++ "Analyze the provided email data summary and respond to the user\x27s request. "
    ++ "Focus on actionable information, charges, dates, and key details. "
    ++ "If the tool output JSON includes telemetry (input_count, extracted_count, metrics with usage tokens/model), briefly state these at the top of your answer."

def minimalSystemFocused : String :=
  "You are LifeLine, a helpful AI assistant. "
    ++ "Analyze the provided email data summary and respond to the user\x27s request. "
    ++ "Include any available telemetry from the tool output (counts/tokens/model) as a short header."

/-- Minimal user message on the chunked path: the last human turn, cut to
400 characters plus a marker when longer than 500, else verbatim; a fixed
request when no human turn exists. -/
def minimalUserChunked (msgs : List AMsg) : String :=
  match firstHumanContent msgs with
  | none => "Please analyze my email data and provide a summary with charges, action items, and key information."
  | some c => if 500 < c.length then pyTake c 400 ++ "... [truncated for processing]" else c

/-- Lines 245–292 of `summarize_tool_output`: the "truly minimal context"
replacing the running state on the chunked path — minimal system message
(`state["messages"][0].__class__`, the SystemMessage in `run_agent`),
minimal user message, summarized tool message — together with the safety
valve that truncates the summary when even this 3-message context exceeds
the safe limit. -/
def minimalChunkedContext (e : Encoding τ) (tm : TokenManager) (msgs : List AMsg)
    (new_tool_content tool_call_id : String) : List AMsg :=
  let minimal_system_msg := AMsg.system minimalSystemChunked
  let minimal_user_msg := AMsg.human (minimalUserChunked msgs)
  let essential := [minimal_system_msg, minimal_user_msg, AMsg.tool new_tool_content tool_call_id]
  let replacement_tokens := count_message_tokens e essential
  if tm.safe_context_limit < replacement_tokens then
    -- safety valve: truncate the summary itself
    let max_summary_tokens := tm.safe_context_limit - 2000
    let truncated_summary := truncate_to_tokens e new_tool_content max_summary_tokens
    [minimal_system_msg, minimal_user_msg,
      AMsg.tool (truncated_summary ++ "\n\n[Summary truncated to fit context limits]") tool_call_id]
  else essential

/-- The chunked-summary path of `summarize_tool_output` (lines 117–292):
chunk at 90% of the model context, summarize each chunk (fail-soft to an
inline error placeholder), optionally consolidate, then replace the state
with the 3-message minimal context, truncating the summary if even that
exceeds the safe limit. -/
def chunkedRebuild (e : Encoding τ) (tm : TokenManager) (llm : String → Except String String)
    (system_tokens history_tokens : Nat) (msgs : List AMsg)
    (content tool_call_id : String) : List AMsg :=
  let user_query := inferUserQuery msgs
  -- `optimal_chunk_size = int(model_context_limit * 0.9)` (exact for all configured limits)
  let optimal_chunk_size := tm.context_limit * 9 / 10
  let chunks := chunk_content_with_size e content optimal_chunk_size
  let chunk_summaries := chunks.enum.map fun p =>
    match llm (chunkPrompt user_query p.1 chunks.length p.2) with
    | .ok r => "**Chunk " ++ toString (p.1 + 1) ++ " Summary:**\n" ++ r
    | .error msg => "**Chunk " ++ toString (p.1 + 1) ++ " Summary:**\nError processing this chunk: " ++ msg
  let combined_summary := String.intercalate "\n\n" chunk_summaries
  let combined_tokens := count_tokens e combined_summary
  let final_summary :=
    if AGENT_RESUMMARY_THRESHOLD_TOKENS < combined_tokens then
      match llm (consolidationPrompt user_query combined_summary) with
      | .ok r => r
      | .error _ =>
        truncate_to_tokens e combined_summary (get_available_tokens tm system_tokens history_tokens)
          ++ "\n\n[Summary truncated due to processing error]"
    else combined_summary
  let new_tool_content :=
    "Comprehensive summary of tool output (" ++ toString chunks.length ++ " chunks processed):\n\n"
      ++ final_summary
  minimalChunkedContext e tm msgs new_tool_content tool_call_id

/-- The focused-summary path of `summarize_tool_output` (lines 295–379):
one summarization call, 3-message minimal rebuild, and — on a failing
call — the token-truncation fallback rebuild.  Note: unlike the chunked
path, neither branch re-checks the rebuilt context against
`safe_context_limit`. -/
def focusedRebuild (e : Encoding τ) (tm : TokenManager) (llm : String → Except String String)
    (system_tokens history_tokens : Nat) (msgs : List AMsg)
    (content tool_call_id : String) : List AMsg :=
  let user_context :=
    match firstHumanContent msgs with
    | some c => truncate_to_tokens e c 100
    | none => "email analysis"
  match llm (focusedPrompt user_context content) with
  | .ok focused_summary =>
    let focused_message := AMsg.tool ("Focused summary of tool output:\n\n" ++ focused_summary) tool_call_id
    let minimal_user_content :=
      match firstHumanContent msgs with
      | none => "Please analyze my email data."
      | some c => if 300 < c.length then pyTake c 250 ++ "... [truncated]" else c
    [AMsg.system minimalSystemFocused, AMsg.human minimal_user_content, focused_message]
  | .error _ =>
    let truncated_content :=
      truncate_to_tokens e content (get_available_tokens tm system_tokens history_tokens)
        ++ "\n\n[Content truncated due to processing error]"
    let minimal_user_content :=
      match firstHumanContent msgs with
      | none => "Please analyze my email data."
      | some c => if 200 < c.length then pyTake c 150 ++ "... [truncated]" else c
    [AMsg.system "You are LifeLine, a helpful AI assistant analyzing email data.",
      AMsg.human minimal_user_content, AMsg.tool truncated_content tool_call_id]

/-- The three states of one tool-output message in the overflow controller. -/
inductive OverflowPath where
  | chunked
  | focused
  | passThrough
deriving Repr, DecidableEq

/-- The branch `summarize_tool_output` takes for the running message
sequence: its `if should_chunk_content / elif
should_summarize_moderate_content / else` chain (pass-through also covers a
last message that is not a `ToolMessage`). -/
def toolOutputPath (e : Encoding τ) (model full_system_prompt : String)
    (msgs : List AMsg) : OverflowPath :=
  let tm := create_token_manager model
  match msgs.getLast? with
  | some (.tool content _) =>
    let system_tokens := count_tokens e full_system_prompt
    let history_tokens := count_message_tokens e msgs.dropLast
    if should_chunk_content e tm content system_tokens history_tokens then .chunked
    else if should_summarize_moderate_content e tm content then .focused
    else .passThrough
  | _ => .passThrough

/-- `summarize_tool_output(state)`: `some rebuilt` when the function returns
`{"messages": essential_messages}`, `none` when it returns `{}` (no state
change).  `model` determines the `create_token_manager` instance closed over
from `run_agent`; `full_system_prompt` is the closed-over system prompt. -/
def summarize_tool_output (e : Encoding τ) (llm : String → Except String String)
    (model full_system_prompt : String) (msgs : List AMsg) : Option (List AMsg) :=
  let tm := create_token_manager model
  match msgs.getLast? with
  | some (.tool content tool_call_id) =>
    let system_tokens := count_tokens e full_system_prompt
    let history_tokens := count_message_tokens e msgs.dropLast
    if should_chunk_content e tm content system_tokens history_tokens then
      some (chunkedRebuild e tm llm system_tokens history_tokens msgs content tool_call_id)
    else if should_summarize_moderate_content e tm content then
      some (focusedRebuild e tm llm system_tokens history_tokens msgs content tool_call_id)
    else none
  | _ => none

/-! ## The LangGraph workflow built in `run_agent` (lines 391–402) -/

/-- The node handlers defined inside `run_agent`. -/
inductive NodeAction where
  | callModel           -- `call_model`
  | toolNode            -- `ToolNode(tools)`
  | summarizer          -- `summarize_tool_output`
deriving Repr, DecidableEq

/-- A `StateGraph` as assembled by `run_agent`: named nodes with their
handlers, an entry point, conditional edges (source, router, mapping), and
unconditional edges. -/
structure Workflow where
  nodes : List (String × NodeAction)
  entry_point : String
  conditional_edges : List (String × String × List (String × String))
  edges : List (String × String)
deriving Repr, DecidableEq

/-- The workflow `run_agent` compiles:
`add_node("agent", call_model)`, `add_node("tools", ToolNode(tools))`,
`set_entry_point("agent")`,
`add_conditional_edges("agent", should_continue, {"tools": "tools", "end": END})`,
`add_edge("tools", "agent")`. -/
def agentWorkflow : Workflow where
  nodes := [("agent", .callModel), ("tools", .toolNode)]
  entry_point := "agent"
  conditional_edges := [("agent", "should_continue", [("tools", "tools"), ("end", "END")])]
  edges := [("tools", "agent")]

/-! ## Basic lemmas about the tokenizer model -/

theorem encode_empty_length (e : Encoding τ) : (e.encode "").length = 0 :=
  Nat.le_zero.mp (e.encode_le_length "")

theorem count_tokens_eq (e : Encoding τ) (s : String) :
    count_tokens e s = (e.encode s).length := by
  unfold count_tokens
  split
  · next h => rw [h, encode_empty_length]
  · rfl

theorem count_tokens_append_le (e : Encoding τ) (a b : String) :
    count_tokens e (a ++ b) ≤ count_tokens e a + count_tokens e b := by
  simpa [count_tokens_eq] using e.encode_append_le a b

theorem count_tokens_le_length (e : Encoding τ) (s : String) :
    count_tokens e s ≤ s.length := by
  rw [count_tokens_eq]; exact e.encode_le_length s

theorem truncate_to_tokens_le (e : Encoding τ) (text : String) (max_tokens : Nat) :
    count_tokens e (truncate_to_tokens e text max_tokens) ≤ max_tokens := by
  unfold truncate_to_tokens
  split
  · next h => simp [count_tokens, h]
  · split
    · next h => exact h
    · next h =>
      calc count_tokens e (e.decode ((e.encode text).take max_tokens))
          = (e.encode (e.decode ((e.encode text).take max_tokens))).length := count_tokens_eq ..
        _ ≤ ((e.encode text).take max_tokens).length := e.reencode_le _
        _ ≤ max_tokens := by simpa using List.length_take_le max_tokens (e.encode text)

theorem truncate_to_tokens_of_le (e : Encoding τ) (text : String) (max_tokens : Nat)
    (h : count_tokens e text ≤ max_tokens) :
    truncate_to_tokens e text max_tokens = text := by
  simp [truncate_to_tokens, h]

theorem count_tokens_charEncoding (s : String) : count_tokens charEncoding s = s.length := by
  rw [count_tokens_eq]
  rfl

/-! ## Lemmas about the model-context table -/

theorem lookup_getD_ge (m : String) (d bound : Nat) :
    ∀ l : List (String × Nat), (∀ p ∈ l, bound ≤ p.2) → bound ≤ d →
      bound ≤ ((l.lookup m).getD d)
  | [], _, hd => by simpa [List.lookup] using hd
  | (k, v) :: es, h, hd => by
    simp only [List.lookup]
    cases hkm : (m == k) with
    | true => simpa using h (k, v) (by simp)
    | false =>
      simpa using lookup_getD_ge m d bound es (fun p hp => h p (by simp [hp])) hd

theorem contextLimitFor_ge (model : String) : 8192 ≤ contextLimitFor model := by
  unfold contextLimitFor
  exact lookup_getD_ge model 128000 8192 MODEL_CONTEXT_LIMITS (by decide) (by norm_num)

theorem safe_context_limit_eq (model : String) :
    (create_token_manager model).safe_context_limit = contextLimitFor model * 9 / 10 := rfl

theorem safe_context_limit_ge (model : String) :
    7372 ≤ (create_token_manager model).safe_context_limit := by
  rw [safe_context_limit_eq]
  calc (7372 : Nat) = 8192 * 9 / 10 := by norm_num
    _ ≤ contextLimitFor model * 9 / 10 :=
        Nat.div_le_div_right (Nat.mul_le_mul_right _ (contextLimitFor_ge model))

/-! ## Claims C1, C6, C7 -/

/-- C1: the spec says the ContentOverflowController
(`summarize_tool_output`) runs on the running message sequence each time a
tool-call result is appended, before the model is invoked again.  In the
workflow that `run_agent` actually compiles, no node's handler is
`summarize_tool_output`, and the only edge out of `"tools"` goes straight
to `"agent"` (the `call_model` node) — the controller is dead code, so
tool outputs reach the model unprocessed. -/
theorem C1_workflow_has_no_summarizer :
    (∀ p ∈ agentWorkflow.nodes, p.2 ≠ NodeAction.summarizer) ∧
    ("tools", "agent") ∈ agentWorkflow.edges ∧
    agentWorkflow.edges.filter (fun p => p.1 == "tools") = [("tools", "agent")] := by
  decide

/-- C6: for any text and `max_tokens ≥ 1`,
`count_tokens (truncate_to_tokens text max_tokens) ≤ max_tokens`, and a
text already within budget is returned unchanged. -/
theorem C6_truncate_roundtrip (e : Encoding τ) (text : String) (max_tokens : Nat)
    (hmax : 1 ≤ max_tokens) :
    count_tokens e (truncate_to_tokens e text max_tokens) ≤ max_tokens ∧
    (count_tokens e text ≤ max_tokens → truncate_to_tokens e text max_tokens = text) :=
  ⟨truncate_to_tokens_le e text max_tokens, truncate_to_tokens_of_le e text max_tokens⟩

/-- Witness for C6 at the character tokenizer, `"hello world"`, budget 3. -/
theorem C6_truncate_roundtrip_witness :
    count_tokens charEncoding (truncate_to_tokens charEncoding "hello world" 3) ≤ 3 ∧
    (count_tokens charEncoding "hello world" ≤ 3 →
      truncate_to_tokens charEncoding "hello world" 3 = "hello world") :=
  C6_truncate_roundtrip charEncoding "hello world" 3 (by norm_num)

/-- C7: for every model in `MODEL_CONTEXT_LIMITS` and any
`system_tokens, history_tokens ≥ 0`, `get_available_tokens` is strictly
positive, and whenever the budget computation is ≤ 0 it returns the
emergency minimum `min(5000, safe_context_limit // 10)`. -/
theorem C7_available_tokens_positive (model : String)
    (hmodel : model ∈ MODEL_CONTEXT_LIMITS.map Prod.fst)
    (system_tokens history_tokens : Nat) :
    0 < get_available_tokens (create_token_manager model) system_tokens history_tokens ∧
    (((create_token_manager model).safe_context_limit : Int)
        - (system_tokens + history_tokens + MIN_RESPONSE_TOKENS + SYSTEM_PROMPT_BUFFER_TOKENS) ≤ 0 →
      get_available_tokens (create_token_manager model) system_tokens history_tokens
        = min 5000 ((create_token_manager model).safe_context_limit / 10)) := by
  have hsafe := safe_context_limit_ge model
  constructor
  · simp only [get_available_tokens]
    split
    · next h =>
      refine lt_min (by norm_num) (Nat.div_pos ?_ (by norm_num))
      omega
    · next h => omega
  · intro hneg
    simp only [get_available_tokens]
    rw [if_pos (by push_cast at hneg ⊢; omega)]

/-- Witness for C7: the `gpt-4` model with a history that already exceeds
the whole window. -/
theorem C7_available_tokens_positive_witness :
    0 < get_available_tokens (create_token_manager "gpt-4") 5000 900000 ∧
    (((create_token_manager "gpt-4").safe_context_limit : Int)
        - (5000 + 900000 + MIN_RESPONSE_TOKENS + SYSTEM_PROMPT_BUFFER_TOKENS) ≤ 0 →
      get_available_tokens (create_token_manager "gpt-4") 5000 900000
        = min 5000 ((create_token_manager "gpt-4").safe_context_limit / 10)) :=
  C7_available_tokens_positive "gpt-4" (by decide) 5000 900000

/-! ## Claim C10: chunking termination and output caps -/

theorem chunkContentLoop_length_le (e : Encoding τ) (content : String) (ct eff : Nat)
    (heff : 0 < eff) :
    ∀ n tp chunks, ct - tp ≤ n → chunks.length ≤ 50 →
      (chunkContentLoop e content ct eff heff tp chunks).length ≤ 51 := by
  intro n
  induction n with
  | zero =>
    intro tp chunks hfuel hlen
    rw [chunkContentLoop, dif_neg (by omega)]
    omega
  | succ n ih =>
    intro tp chunks hfuel hlen
    rw [chunkContentLoop]
    split
    · next h =>
      dsimp only
      split
      · next h2 => simp only [List.length_append, List.length_cons, List.length_nil, Nat.zero_add] at h2 ⊢; omega
      · next h2 =>
        refine ih (tp + eff) _ (by omega) ?_
        simp only [List.length_append, List.length_cons, List.length_nil, Nat.zero_add] at h2 ⊢
        omega
    · omega

theorem chunkWithSizeLoop_length_le (e : Encoding τ) (content : String) (ct eff : Nat)
    (heff : 0 < eff) :
    ∀ n tp chunks, ct - tp ≤ n → chunks.length ≤ 100 →
      (chunkWithSizeLoop e content ct eff heff tp chunks).length ≤ 101 := by
  intro n
  induction n with
  | zero =>
    intro tp chunks hfuel hlen
    rw [chunkWithSizeLoop, dif_neg (by omega)]
    omega
  | succ n ih =>
    intro tp chunks hfuel hlen
    rw [chunkWithSizeLoop]
    split
    · next h =>
      dsimp only
      split
      · omega
      · split
        · next h2 => simp only [List.length_append, List.length_cons, List.length_nil, Nat.zero_add] at h2 ⊢; omega
        · next h2 =>
          refine ih (tp + eff) _ (by omega) ?_
          simp only [List.length_append, List.length_cons, List.length_nil, Nat.zero_add] at h2 ⊢
          omega
    · omega

/-- The loop emits exactly 51 chunks when enough tokens remain: each pass
consumes `eff` tokens, so 51 full passes need `51·eff` tokens beyond `tp`. -/
theorem chunkContentLoop_length_eq (e : Encoding τ) (content : String) (ct eff : Nat)
    (heff : 0 < eff) :
    ∀ n tp chunks, ct - tp ≤ n → chunks.length ≤ 50 →
      tp + (51 - chunks.length) * eff ≤ ct →
      (chunkContentLoop e content ct eff heff tp chunks).length = 51 := by
  intro n
  induction n with
  | zero =>
    intro tp chunks hfuel hlen hbudget
    have h1 : eff ≤ (51 - chunks.length) * eff := by
      calc eff = 1 * eff := (one_mul _).symm
        _ ≤ (51 - chunks.length) * eff := Nat.mul_le_mul_right eff (by omega)
    omega
  | succ n ih =>
    intro tp chunks hfuel hlen hbudget
    have h1 : eff ≤ (51 - chunks.length) * eff := by
      calc eff = 1 * eff := (one_mul _).symm
        _ ≤ (51 - chunks.length) * eff := Nat.mul_le_mul_right eff (by omega)
    have hlt : tp < ct := by omega
    rw [chunkContentLoop, dif_pos hlt]
    dsimp only
    split
    · next h2 => simp only [List.length_append, List.length_cons, List.length_nil, Nat.zero_add] at h2 ⊢; omega
    · next h2 =>
      simp only [List.length_append, List.length_cons, List.length_nil, Nat.zero_add] at h2
      refine ih (tp + eff) _ (by omega) (by simp only [List.length_append, List.length_cons, List.length_nil, Nat.zero_add]; omega) ?_
      simp only [List.length_append, List.length_cons, List.length_nil, Nat.zero_add]
      have hstep : (51 - (chunks.length + 1)) * eff + eff = (51 - chunks.length) * eff := by
        have h3 : 51 - chunks.length = (51 - (chunks.length + 1)) + 1 := by omega
        rw [h3, Nat.succ_mul]
      omega

/-- C10 (amended): both chunkers always terminate (they are total functions)
and return a bounded list — `chunk_content` emits at most **51** chunks
(the `len(chunks) > 50` guard fires after the 51st append) and
`chunk_content_with_size` at most **101** (guard `> 100`, plus the early
stop on a whitespace-only chunk); past the cap the rest of the content is
dropped. -/
theorem C10_chunk_output_caps (e : Encoding τ) (tm : TokenManager) (content : String)
    (system_tokens history_tokens chunk_size_tokens : Nat) :
    (chunk_content e tm content system_tokens history_tokens).length ≤ 51 ∧
    (chunk_content_with_size e content chunk_size_tokens).length ≤ 101 := by
  constructor
  · simp only [chunk_content]
    exact chunkContentLoop_length_le e content _ _ _ _ 0 [] le_rfl (by norm_num)
  · simp only [chunk_content_with_size]
    split
    · norm_num
    · exact chunkWithSizeLoop_length_le e content _ _ _ _ 0 [] le_rfl (by norm_num)

/-- Counterexample to C10 as stated ("at most 50 chunks"): for the `gpt-4`
token manager (effective chunk stride `1643` tokens) and an input of
exactly `51 × 1643 = 83793` tokens, `chunk_content` returns **51** chunks. -/
theorem C10_counterexample :
    50 < (chunk_content charEncoding (create_token_manager "gpt-4")
      (String.mk (List.replicate 83793 'a')) 0 0).length := by
  have hmx : (create_token_manager "gpt-4").max_chunk_tokens = 1843 := by decide
  have hct : count_tokens charEncoding (String.mk (List.replicate 83793 'a')) = 83793 := by
    rw [count_tokens_eq]
    show (List.replicate 83793 'a').length = 83793
    exact List.length_replicate 83793 'a'
  simp only [chunk_content, hmx, hct, CHUNK_OVERLAP_TOKENS, MAX_CHUNK_TOKENS_CAP]
  norm_num
  refine lt_of_lt_of_eq (by norm_num : (50 : Nat) < 51) ?_
  exact (chunkContentLoop_length_eq charEncoding _ 83793 1643 (by norm_num) 83793 0 []
    le_rfl (by norm_num) (by norm_num)).symm

/-! ## Claims C2, C8, C9: memory ranking -/

instance {ε α : Type} [DecidableEq ε] [DecidableEq α] : DecidableEq (Except ε α) := fun a b =>
  match a, b with
  | .error e, .error f => decidable_of_iff (e = f) (by simp)
  | .error _, .ok _ => isFalse (by simp)
  | .ok _, .error _ => isFalse (by simp)
  | .ok a, .ok b => decidable_of_iff (a = b) (by simp)

/-- `rankFromCandidates` with its `let` bindings expanded (definitional). -/
theorem rankFromCandidates_def (sqrtQ : ℚ → ℚ) (save : Memory → Except Unit Unit) (now : Int)
    (query_embedding : List ℚ) (limit : Nat) (min_similarity : ℚ) (memories : List Memory) :
    rankFromCandidates sqrtQ save now query_embedding limit min_similarity memories =
      if memories = [] then []
      else
        match writeBackAccess save now
            (((scoreCandidates sqrtQ query_embedding now min_similarity memories).insertionSort
              (fun a b => b.2.2 ≤ a.2.2)).take limit) with
        | .ok memory_objects => memory_objects
        | .error _ => [] := rfl

theorem scoreOne_eq_some_fst (sqrtQ : ℚ → ℚ) (query_embedding : List ℚ) (now : Int)
    (min_similarity : ℚ) (a : Memory) (t : Memory × ℚ × ℚ)
    (h : scoreOne sqrtQ query_embedding now min_similarity a = some t) : t.1 = a := by
  unfold scoreOne at h
  split at h
  · cases h
  · split at h
    · cases h
    · split at h
      · cases h
      · injection h with h'
        rw [← h']

theorem writeBackAccess_ok_mem (save : Memory → Except Unit Unit) (now : Int) :
    ∀ (l : List (Memory × ℚ × ℚ)) (objs : List Memory),
      writeBackAccess save now l = .ok objs →
      ∀ m ∈ objs, ∃ t ∈ l, m = touchAccess t.1 now := by
  intro l
  induction l with
  | nil =>
    intro objs h m hm
    simp only [writeBackAccess] at h
    injection h with h'
    subst h'
    simp at hm
  | cons t rest ih =>
    intro objs h m hm
    obtain ⟨mem, sim, comp⟩ := t
    simp only [writeBackAccess] at h
    cases hsave : save (touchAccess mem now) with
    | error er => rw [hsave] at h; cases h
    | ok u =>
      rw [hsave] at h
      cases hrest : writeBackAccess save now rest with
      | error er => rw [hrest] at h; simp [Except.map] at h
      | ok objs' =>
        rw [hrest] at h
        simp only [Except.map, Except.ok.injEq] at h
        subst h
        rcases List.mem_cons.mp hm with hm | hm
        · exact ⟨(mem, sim, comp), List.mem_cons_self _ _, hm⟩
        · obtain ⟨t', ht', hmt'⟩ := ih objs' hrest m hm
          exact ⟨t', List.mem_cons_of_mem _ ht', hmt'⟩

/-- C8 (amended): every memory returned by `get_relevant_memories` is a
stored memory with its access count incremented and `last_accessed_at` set
to now; and a failing write-back `save` is absorbed by the function-level
handler, which logs and returns the **empty list** — the exception never
propagates, but the read result is lost. -/
theorem C8_access_writeback (sqrtQ : ℚ → ℚ) (save : Memory → Except Unit Unit) (now : Int)
    (query_embedding : List ℚ) (store : List Memory) (limit : Nat) (min_similarity : ℚ) :
    (∀ m ∈ get_relevant_memories sqrtQ save now query_embedding store limit min_similarity,
      m.last_accessed_at = some now ∧ ∃ m₀ ∈ store, m = touchAccess m₀ now) ∧
    ((∀ x, save x = .error ()) →
      get_relevant_memories sqrtQ save now query_embedding store limit min_similarity = []) := by
  constructor
  · intro m hm
    unfold get_relevant_memories at hm
    rw [rankFromCandidates_def] at hm
    split at hm
    · simp at hm
    · next hne =>
      cases hwb : writeBackAccess save now
          (((scoreCandidates sqrtQ query_embedding now min_similarity
            (queryMemoriesWithEmbedding store)).insertionSort
              (fun a b => b.2.2 ≤ a.2.2)).take limit) with
      | error er => rw [hwb] at hm; simp at hm
      | ok objs =>
        rw [hwb] at hm
        obtain ⟨t, ht, rfl⟩ := writeBackAccess_ok_mem save now _ objs hwb m hm
        refine ⟨rfl, t.1, ?_, rfl⟩
        have h1 : t ∈ (scoreCandidates sqrtQ query_embedding now min_similarity
            (queryMemoriesWithEmbedding store)).insertionSort (fun a b => b.2.2 ≤ a.2.2) :=
          List.take_subset _ _ ht
        have h2 : t ∈ scoreCandidates sqrtQ query_embedding now min_similarity
            (queryMemoriesWithEmbedding store) :=
          (List.perm_insertionSort _ _).mem_iff.mp h1
        obtain ⟨a, ha, hsc⟩ := List.mem_filterMap.mp h2
        have h3 : t.1 = a := scoreOne_eq_some_fst _ _ _ _ _ _ hsc
        rw [h3]
        have h4 : a ∈ (store.filter (fun m => m.embedding.isSome)) :=
          (List.perm_insertionSort _ _).mem_iff.mp ha
        exact (List.mem_filter.mp h4).1
  · intro hferr
    unfold get_relevant_memories
    rw [rankFromCandidates_def]
    split
    · rfl
    · cases htop : (((scoreCandidates sqrtQ query_embedding now min_similarity
          (queryMemoriesWithEmbedding store)).insertionSort
            (fun a b => b.2.2 ≤ a.2.2)).take limit) with
      | nil => simp [writeBackAccess]
      | cons t r =>
        obtain ⟨mem, sim, comp⟩ := t
        simp [writeBackAccess, hferr]

/-- A user memory used to exercise the ranking pipeline on concrete data. -/
def memA : Memory :=
  { id := 1, content := "likes coffee", importance_score := 1/2,
    embedding := some [1], access_count := 0, last_accessed_at := none, updated_at := 0 }

/-- Counterexample to C8 as stated: with a store whose single memory matches
the query perfectly, a failing write-back `save` makes
`get_relevant_memories` return `[]`, while the same inputs with a working
`save` return that memory — so a write-back failure does empty the list
returned to the caller. -/
theorem queryMemories_memA : queryMemoriesWithEmbedding [memA] = [memA] := by
  simp [queryMemoriesWithEmbedding, List.insertionSort, List.orderedInsert, List.filter, memA]

theorem cosine_one_one : cosine_similarity (fun _ => (1 : ℚ)) [1] [1] = .ok 1 := by
  simp only [cosine_similarity]
  norm_num

theorem scoreOne_memA :
    scoreOne (fun _ => (1 : ℚ)) [1] 0 (3/10) memA
      = some (memA, 1, compositeScore 0 memA 1) := by
  simp only [scoreOne, show memA.embedding = some [1] from rfl, cosine_one_one]
  rw [if_neg (by norm_num)]

theorem rank_memA_ok :
    get_relevant_memories (fun _ => 1) (fun _ => .ok ()) 0 [1] [memA] 5 (3/10)
      = [touchAccess memA 0] := by
  have h2 : scoreCandidates (fun _ => 1) [1] 0 (3/10) [memA]
      = [(memA, 1, compositeScore 0 memA 1)] := by
    simp [scoreCandidates, List.filterMap_cons, scoreOne_memA]
  unfold get_relevant_memories
  rw [rankFromCandidates_def, queryMemories_memA, if_neg (by simp), h2]
  simp [List.insertionSort, List.orderedInsert, writeBackAccess, Except.map]

theorem rank_memA_error :
    get_relevant_memories (fun _ => 1) (fun _ => .error ()) 0 [1] [memA] 5 (3/10) = [] := by
  have h2 : scoreCandidates (fun _ => 1) [1] 0 (3/10) [memA]
      = [(memA, 1, compositeScore 0 memA 1)] := by
    simp [scoreCandidates, List.filterMap_cons, scoreOne_memA]
  unfold get_relevant_memories
  rw [rankFromCandidates_def, queryMemories_memA, if_neg (by simp), h2]
  simp [List.insertionSort, List.orderedInsert, writeBackAccess]

theorem C8_counterexample :
    get_relevant_memories (fun _ => 1) (fun _ => .error ()) 0 [1] [memA] 5 (3/10) = [] ∧
    get_relevant_memories (fun _ => 1) (fun _ => .ok ()) 0 [1] [memA] 5 (3/10)
      = [touchAccess memA 0] :=
  ⟨rank_memA_error, rank_memA_ok⟩

/-- Witness for C8 (amended) at the concrete one-memory store. -/
theorem C8_access_writeback_witness :
    ((touchAccess memA 0).last_accessed_at = some 0 ∧
      ∃ m₀ ∈ [memA], touchAccess memA 0 = touchAccess m₀ 0) ∧
    get_relevant_memories (fun _ => 1) (fun _ => .error ()) 0 [1] [memA] 5 (3/10) = [] :=
  ⟨(C8_access_writeback (fun _ => 1) (fun _ => .ok ()) 0 [1] [memA] 5 (3/10)).1
      (touchAccess memA 0) (by rw [rank_memA_ok]; exact List.mem_singleton.mpr rfl),
   (C8_access_writeback (fun _ => 1) (fun _ => .error ()) 0 [1] [memA] 5 (3/10)).2
      (fun _ => rfl)⟩

/-- C9: an exception while scoring one candidate memory (here: an embedding
whose shape makes `cosine_similarity` raise) skips exactly that memory —
the ranking over the remaining candidates is unchanged, so one corrupt
memory cannot abort or empty the result. -/
theorem C9_corrupt_memory_skipped (sqrtQ : ℚ → ℚ) (save : Memory → Except Unit Unit)
    (now : Int) (query_embedding : List ℚ) (limit : Nat) (min_similarity : ℚ)
    (xs ys : List Memory) (bad : Memory) (emb : List ℚ)
    (hemb : bad.embedding = some emb)
    (herr : cosine_similarity sqrtQ query_embedding emb = .error ()) :
    rankFromCandidates sqrtQ save now query_embedding limit min_similarity (xs ++ bad :: ys)
      = rankFromCandidates sqrtQ save now query_embedding limit min_similarity (xs ++ ys) := by
  have hskip : scoreOne sqrtQ query_embedding now min_similarity bad = none := by
    simp only [scoreOne, hemb, herr]
  have hscore : scoreCandidates sqrtQ query_embedding now min_similarity (xs ++ bad :: ys)
      = scoreCandidates sqrtQ query_embedding now min_similarity (xs ++ ys) := by
    unfold scoreCandidates
    simp [List.filterMap_append, List.filterMap_cons, hskip]
  rw [rankFromCandidates_def, rankFromCandidates_def, hscore]
  by_cases hxy : xs ++ ys = []
  · rw [if_neg (by simp), if_pos hxy, hxy]
    simp [scoreCandidates, writeBackAccess, List.insertionSort]
  · rw [if_neg (by simp), if_neg hxy]

/-- Witness for C9: a second memory with a zero-length embedding is skipped
and the ranking equals the ranking without it. -/
theorem C9_corrupt_memory_skipped_witness :
    rankFromCandidates (fun _ => 1) (fun _ => .ok ()) 0 [1] 5 (3/10)
        ([memA] ++ { memA with id := 2, embedding := some [] } :: [])
      = rankFromCandidates (fun _ => 1) (fun _ => .ok ()) 0 [1] 5 (3/10) ([memA] ++ []) :=
  C9_corrupt_memory_skipped (fun _ => 1) (fun _ => .ok ()) 0 [1] 5 (3/10)
    [memA] [] { memA with id := 2, embedding := some [] } [] rfl (by simp [cosine_similarity])

/-- C2 (amended): when no memory of the owner carries an embedding, or no
candidate's similarity clears `min_similarity` (every similarity
computation either raises or scores below the threshold),
`get_relevant_memories` returns the **empty list** — the
importance/recency fallback described in the spec does not exist in the
code. -/
theorem C2_no_similarity_fallback (sqrtQ : ℚ → ℚ) (save : Memory → Except Unit Unit)
    (now : Int) (query_embedding : List ℚ) (store : List Memory)
    (limit : Nat) (min_similarity : ℚ)
    (hbelow : ∀ m ∈ queryMemoriesWithEmbedding store, ∀ emb, m.embedding = some emb →
      ∀ s, cosine_similarity sqrtQ query_embedding emb = .ok s → s < min_similarity) :
    get_relevant_memories sqrtQ save now query_embedding store limit min_similarity = [] := by
  have hscored : scoreCandidates sqrtQ query_embedding now min_similarity
      (queryMemoriesWithEmbedding store) = [] := by
    unfold scoreCandidates
    rw [List.filterMap_eq_nil_iff]
    intro m hm
    cases hembm : m.embedding with
    | none => simp [scoreOne, hembm]
    | some emb =>
      cases hcos : cosine_similarity sqrtQ query_embedding emb with
      | error er => simp [scoreOne, hembm, hcos]
      | ok s =>
        have hlt := hbelow m hm emb hembm s hcos
        simp [scoreOne, hembm, hcos, hlt]
  unfold get_relevant_memories
  rw [rankFromCandidates_def]
  split
  · rfl
  · rw [hscored]
    simp [writeBackAccess, List.insertionSort]

/-- A high-importance stored memory orthogonal to the query embedding. -/
def memB : Memory :=
  { id := 3, content := "goal: run a marathon", importance_score := 9/10,
    embedding := some [1, 0], access_count := 0, last_accessed_at := none, updated_at := 0 }

/-- Counterexample to C2 as stated: the owner has one stored memory (with an
embedding), its cosine similarity to the query is 0 < `min_similarity` =
0.3, and `get_relevant_memories` returns the empty list instead of falling
back to the top memories by (importance desc, updated desc). -/
theorem queryMemories_memB : queryMemoriesWithEmbedding [memB] = [memB] := by
  simp [queryMemoriesWithEmbedding, List.insertionSort, List.orderedInsert, List.filter, memB]

theorem cosine_orthogonal : cosine_similarity (fun _ => (1 : ℚ)) [0, 1] [1, 0] = .ok 0 := by
  simp only [cosine_similarity]
  norm_num

theorem C2_counterexample :
    ([memB] ≠ ([] : List Memory)) ∧
    get_relevant_memories (fun _ => 1) (fun _ => .ok ()) 0 [0, 1] [memB] 5 (3/10) = [] := by
  refine ⟨by simp, ?_⟩
  have h2 : scoreCandidates (fun _ => 1) [0, 1] 0 (3/10) [memB] = [] := by
    simp only [scoreCandidates, List.filterMap_cons, List.filterMap_nil, scoreOne,
      show memB.embedding = some [1, 0] from rfl, cosine_orthogonal]
    rw [if_pos (by norm_num)]
  unfold get_relevant_memories
  rw [rankFromCandidates_def, queryMemories_memB, if_neg (by simp), h2]
  simp [List.insertionSort, writeBackAccess]

/-- Witness for C2 (amended) at the concrete orthogonal-query store. -/
theorem C2_no_similarity_fallback_witness :
    get_relevant_memories (fun _ => 1) (fun _ => .ok ()) 0 [0, 1] [memB] 5 (3/10) = [] := by
  refine C2_no_similarity_fallback (fun _ => 1) (fun _ => .ok ()) 0 [0, 1] [memB] 5 (3/10) ?_
  intro m hm emb hembm s hcos
  rw [queryMemories_memB] at hm
  have hmB : m = memB := by simpa using hm
  subst hmB
  have hembB : emb = [1, 0] := by
    have : (some [1, 0] : Option (List ℚ)) = some emb := hembm
    injection this with h'
    exact h'.symm
  subst hembB
  rw [cosine_orthogonal] at hcos
  injection hcos with h'
  subst h'
  norm_num

/-! ## Claim C4: recency-biased history truncation -/

theorem formattedNonEmpty_append (l₁ l₂ : List HMsg) :
    formattedNonEmpty (l₁ ++ l₂) = formattedNonEmpty l₁ ++ formattedNonEmpty l₂ := by
  simp [formattedNonEmpty]

theorem formattedNonEmpty_reverse (l : List HMsg) :
    formattedNonEmpty l.reverse = (formattedNonEmpty l).reverse := by
  simp [formattedNonEmpty, List.filter_reverse, List.map_reverse]

/-- Whatever the loop returns is the reversal of the formatted non-empty
messages of some processed prefix, prepended to the accumulator: the loop
accepts a contiguous run and stops. -/
theorem selectHistoryLoop_shape (e : Encoding τ) (max_tokens : Nat) :
    ∀ (l : List HMsg) (total : Nat) (acc : List String),
      ∃ j, selectHistoryLoop e max_tokens l total acc
        = (formattedNonEmpty (l.take j)).reverse ++ acc := by
  intro l
  induction l with
  | nil =>
    intro total acc
    exact ⟨0, by simp [selectHistoryLoop, formattedNonEmpty]⟩
  | cons m rest ih =>
    intro total acc
    by_cases hm : pyStrip m.content = ""
    · obtain ⟨j, hj⟩ := ih total acc
      refine ⟨j + 1, ?_⟩
      simp only [selectHistoryLoop, if_pos hm, hj, List.take_succ_cons, formattedNonEmpty,
        List.filter_cons]
      simp [hm]
    · by_cases hov : max_tokens < total + (e.encode (formatMsg m)).length
      · refine ⟨0, ?_⟩
        simp only [selectHistoryLoop, if_neg hm, if_pos hov]
        simp [formattedNonEmpty]
      · obtain ⟨j, hj⟩ := ih (total + (e.encode (formatMsg m)).length) (formatMsg m :: acc)
        refine ⟨j + 1, ?_⟩
        simp only [selectHistoryLoop, if_neg hm, if_neg hov, hj, List.take_succ_cons,
          formattedNonEmpty, List.filter_cons]
        simp [hm]

/-- The selected history lines are a suffix of the chronologically formatted
non-empty messages: no older message is kept while a newer one is dropped,
and order is chronological. -/
theorem selectHistory_suffix (e : Encoding τ) (messages : List HMsg) (max_tokens : Nat) :
    selectHistory e messages max_tokens <:+ formattedNonEmpty messages := by
  obtain ⟨j, hj⟩ := selectHistoryLoop_shape e max_tokens messages.reverse 0 []
  unfold selectHistory
  rw [hj, List.append_nil]
  have hpre : formattedNonEmpty (messages.reverse.take j)
      <+: formattedNonEmpty messages.reverse := by
    conv_rhs => rw [← List.take_append_drop j messages.reverse, formattedNonEmpty_append]
    exact List.prefix_append _ _
  rw [formattedNonEmpty_reverse] at hpre
  have h2 := List.reverse_suffix.mpr hpre
  rwa [List.reverse_reverse] at h2

/-- If the first accepted-able message (the newest with non-empty content)
fits the remaining budget, its formatted line is in the loop's result. -/
theorem selectHistoryLoop_takes_first (e : Encoding τ) (max_tokens : Nat) :
    ∀ (l : List HMsg) (total : Nat) (acc : List String) (m0 : HMsg) (rest' : List HMsg),
      l.filter (fun m => ¬ (pyStrip m.content = "")) = m0 :: rest' →
      total + (e.encode (formatMsg m0)).length ≤ max_tokens →
      formatMsg m0 ∈ selectHistoryLoop e max_tokens l total acc := by
  intro l
  induction l with
  | nil =>
    intro total acc m0 rest' hf _
    simp at hf
  | cons m rest ih =>
    intro total acc m0 rest' hf hfit
    by_cases hm : pyStrip m.content = ""
    · have hcond : (decide ¬ (pyStrip m.content = "")) = false := by simp [hm]
      rw [List.filter_cons] at hf
      simp only [hcond, Bool.false_eq_true, if_false] at hf
      simp only [selectHistoryLoop, if_pos hm]
      exact ih total acc m0 rest' hf hfit
    · have hcond : (decide ¬ (pyStrip m.content = "")) = true := by simp [hm]
      rw [List.filter_cons] at hf
      simp only [hcond, if_true] at hf
      injection hf with hm0 hrest'
      subst hm0
      simp only [selectHistoryLoop, if_neg hm, if_neg (not_lt.mpr hfit)]
      obtain ⟨j, hj⟩ := selectHistoryLoop_shape e max_tokens rest
        (total + (e.encode (formatMsg m)).length) (formatMsg m :: acc)
      rw [hj]
      simp

/-- C4 (amended): the formatted history is the newline-join of a *suffix* of
the chronologically ordered formatted non-empty messages (so it never
contains an older message while omitting a newer one, and is chronological);
and it contains the most recent non-empty message **provided that message's
formatted line alone fits `max_tokens`** — when even the newest line
exceeds the budget, the loop breaks immediately and the output is empty. -/
theorem C4_recency_truncation (e : Encoding τ) (messages : List HMsg) (max_tokens : Nat) :
    format_conversation_history e messages max_tokens
      = (if messages = [] then ""
         else String.intercalate "\n" (selectHistory e messages max_tokens)) ∧
    selectHistory e messages max_tokens <:+ formattedNonEmpty messages ∧
    (∀ lm, (formattedNonEmpty messages).getLast? = some lm →
      (e.encode lm).length ≤ max_tokens →
      lm ∈ selectHistory e messages max_tokens) := by
  refine ⟨rfl, selectHistory_suffix e messages max_tokens, ?_⟩
  intro lm hlast hfit
  have h2 : (formattedNonEmpty messages.reverse).head? = some lm := by
    rw [formattedNonEmpty_reverse, List.head?_reverse]
    exact hlast
  cases hfl : messages.reverse.filter (fun m => ¬ (pyStrip m.content = "")) with
  | nil =>
    rw [formattedNonEmpty, hfl] at h2
    simp at h2
  | cons m0 rest' =>
    have hm0 : formatMsg m0 = lm := by
      rw [formattedNonEmpty, hfl] at h2
      simpa using h2
    rw [← hm0]
    exact selectHistoryLoop_takes_first e max_tokens messages.reverse 0 [] m0 rest' hfl
      (by rw [hm0]; simpa using hfit)

/-- A single history message whose formatted line exceeds the budget. -/
def bigHMsg : HMsg :=
  { role := "user", content := "this message is far too long for the budget", timeStr := none }

/-- Counterexample to C4 as stated: a non-empty history whose total
formatted token count (49) exceeds `max_tokens = 5`; the output is the
empty string — it does **not** contain the most recent message with
non-empty content, because even that one message overflows the budget and
the loop breaks before taking anything. -/
theorem C4_counterexample :
    formattedNonEmpty [bigHMsg] ≠ [] ∧
    5 < ((formattedNonEmpty [bigHMsg]).map (fun s => (charEncoding.encode s).length)).sum ∧
    format_conversation_history charEncoding [bigHMsg] 5 = "" := by
  decide

def smallHMsg : HMsg := { role := "user", content := "hi", timeStr := none }

/-- Witness for C4 (amended): with budget 100 the newest line is selected. -/
theorem C4_recency_truncation_witness :
    "User: hi" ∈ selectHistory charEncoding [smallHMsg] 100 :=
  (C4_recency_truncation charEncoding [smallHMsg] 100).2.2 "User: hi" (by decide) (by decide)

/-! ## Claims C3 and C5: the agent summarizer's rebuild and decision order -/

theorem count_message_tokens_three (e : Encoding τ) (m₁ m₂ m₃ : AMsg) :
    count_message_tokens e [m₁, m₂, m₃] = msgTok e m₁ + msgTok e m₂ + msgTok e m₃ + 12 := by
  simp only [count_message_tokens, List.foldl]
  omega

theorem msgTok_le (e : Encoding τ) (m : AMsg) : msgTok e m ≤ count_tokens e m.content := by
  unfold msgTok
  split
  · exact Nat.zero_le _
  · exact le_rfl

theorem minimalUserChunked_length_le (msgs : List AMsg) :
    (minimalUserChunked msgs).length ≤ 500 := by
  unfold minimalUserChunked
  cases hf : firstHumanContent msgs with
  | none =>
    simp only [hf]
    decide
  | some c =>
    simp only [hf]
    by_cases h5 : 500 < c.length
    · rw [if_pos h5, String.length_append, pyTake_length]
      have h30 : ("... [truncated for processing]" : String).length = 30 := by decide
      have h400 : min 400 c.length ≤ 400 := Nat.min_le_left _ _
      omega
    · rw [if_neg h5]
      omega

/-- The safety-valve rebuild of the chunked path stays within the safe
context limit: the summary is pre-truncated to `safe_context_limit − 2000`
tokens and the fixed system text, the ≤500-character user text, the
truncation notice, and 12 tokens of per-message overhead fit in the 2000
reserved tokens. -/
theorem valve_rebuild_le_safe (e : Encoding τ) (tm : TokenManager)
    (hsafe : 2000 ≤ tm.safe_context_limit)
    (user_content tool_content tool_call_id : String)
    (huser : user_content.length ≤ 500) :
    count_message_tokens e [AMsg.system minimalSystemChunked, AMsg.human user_content,
      AMsg.tool (truncate_to_tokens e tool_content (tm.safe_context_limit - 2000)
        ++ "\n\n[Summary truncated to fit context limits]") tool_call_id]
      ≤ tm.safe_context_limit := by
  rw [count_message_tokens_three]
  have h1 : msgTok e (AMsg.system minimalSystemChunked) ≤ 400 := by
    refine le_trans (msgTok_le e _) (le_trans (count_tokens_le_length e _) ?_)
    decide
  have h2 : msgTok e (AMsg.human user_content) ≤ 500 :=
    le_trans (msgTok_le e _) (le_trans (count_tokens_le_length e _) huser)
  have h3 : msgTok e (AMsg.tool (truncate_to_tokens e tool_content (tm.safe_context_limit - 2000)
      ++ "\n\n[Summary truncated to fit context limits]") tool_call_id)
      ≤ (tm.safe_context_limit - 2000) + 50 := by
    refine le_trans (msgTok_le e _) (le_trans (count_tokens_append_le e _ _) ?_)
    have ha := truncate_to_tokens_le e tool_content (tm.safe_context_limit - 2000)
    have hb : count_tokens e ("\n\n[Summary truncated to fit context limits]" : String) ≤ 50 := by
      refine le_trans (count_tokens_le_length e _) ?_
      decide
    omega
  omega

theorem minimalChunkedContext_props (e : Encoding τ) (tm : TokenManager)
    (hsafe : 2000 ≤ tm.safe_context_limit) (msgs : List AMsg)
    (new_tool_content tool_call_id : String) :
    (minimalChunkedContext e tm msgs new_tool_content tool_call_id).length = 3 ∧
    count_message_tokens e (minimalChunkedContext e tm msgs new_tool_content tool_call_id)
      ≤ tm.safe_context_limit := by
  simp only [minimalChunkedContext]
  split
  · next hval =>
    exact ⟨rfl, valve_rebuild_le_safe e tm hsafe (minimalUserChunked msgs) new_tool_content
      tool_call_id (minimalUserChunked_length_le msgs)⟩
  · next hval =>
    exact ⟨rfl, not_lt.mp hval⟩

theorem chunkedRebuild_props (e : Encoding τ) (model : String)
    (llm : String → Except String String) (system_tokens history_tokens : Nat)
    (msgs : List AMsg) (content tool_call_id : String) :
    (chunkedRebuild e (create_token_manager model) llm system_tokens history_tokens
      msgs content tool_call_id).length = 3 ∧
    count_message_tokens e (chunkedRebuild e (create_token_manager model) llm
      system_tokens history_tokens msgs content tool_call_id)
      ≤ (create_token_manager model).safe_context_limit := by
  have hsafe : 2000 ≤ (create_token_manager model).safe_context_limit :=
    le_trans (by norm_num) (safe_context_limit_ge model)
  simp only [chunkedRebuild]
  apply minimalChunkedContext_props e (create_token_manager model) hsafe

theorem focusedRebuild_length (e : Encoding τ) (tm : TokenManager)
    (llm : String → Except String String) (system_tokens history_tokens : Nat)
    (msgs : List AMsg) (content tool_call_id : String) :
    (focusedRebuild e tm llm system_tokens history_tokens msgs content tool_call_id).length
      = 3 := by
  simp only [focusedRebuild]
  split <;> rfl

/-- `toolOutputPath` at a state whose last message is a `ToolMessage`
(definitional unfolding). -/
theorem toolOutputPath_def (e : Encoding τ) (model full_system_prompt : String)
    (msgs : List AMsg) (content tool_call_id : String)
    (hlast : msgs.getLast? = some (.tool content tool_call_id)) :
    toolOutputPath e model full_system_prompt msgs =
      (if should_chunk_content e (create_token_manager model) content
          (count_tokens e full_system_prompt) (count_message_tokens e msgs.dropLast) = true
       then OverflowPath.chunked
       else if should_summarize_moderate_content e (create_token_manager model) content = true
       then OverflowPath.focused
       else OverflowPath.passThrough) := by
  unfold toolOutputPath
  rw [hlast]

/-- `summarize_tool_output` at a state whose last message is a `ToolMessage`
(definitional unfolding). -/
theorem summarize_tool_output_def (e : Encoding τ) (llm : String → Except String String)
    (model full_system_prompt : String) (msgs : List AMsg) (content tool_call_id : String)
    (hlast : msgs.getLast? = some (.tool content tool_call_id)) :
    summarize_tool_output e llm model full_system_prompt msgs =
      (if should_chunk_content e (create_token_manager model) content
          (count_tokens e full_system_prompt) (count_message_tokens e msgs.dropLast) = true
       then some (chunkedRebuild e (create_token_manager model) llm
          (count_tokens e full_system_prompt) (count_message_tokens e msgs.dropLast)
          msgs content tool_call_id)
       else if should_summarize_moderate_content e (create_token_manager model) content = true
       then some (focusedRebuild e (create_token_manager model) llm
          (count_tokens e full_system_prompt) (count_message_tokens e msgs.dropLast)
          msgs content tool_call_id)
       else none) := by
  unfold summarize_tool_output
  rw [hlast]

/-- C3 (amended): whenever `summarize_tool_output` rewrites the running
message sequence — on the chunked and on the focused path, including the
focused path's failure fallback — the rebuilt context is exactly three
messages; on the **chunked** path the rebuilt context additionally satisfies
`count_message_tokens ≤ safe_context_limit` (by the safety valve).  The
focused path performs **no** such size check, so its rebuilt context can
exceed `safe_context_limit` (see the counterexample). -/
theorem C3_minimal_rebuild (e : Encoding τ) (llm : String → Except String String)
    (model full_system_prompt : String) (msgs : List AMsg) (rebuilt : List AMsg)
    (hr : summarize_tool_output e llm model full_system_prompt msgs = some rebuilt) :
    rebuilt.length = 3 ∧
    (toolOutputPath e model full_system_prompt msgs = .chunked →
      count_message_tokens e rebuilt ≤ (create_token_manager model).safe_context_limit) := by
  cases hlast : msgs.getLast? with
  | none => simp [summarize_tool_output, hlast] at hr
  | some m =>
    cases m with
    | system c => simp [summarize_tool_output, hlast] at hr
    | human c => simp [summarize_tool_output, hlast] at hr
    | ai c tc => simp [summarize_tool_output, hlast] at hr
    | tool content tool_call_id =>
      rw [summarize_tool_output_def e llm model full_system_prompt msgs
        content tool_call_id hlast] at hr
      by_cases hc : should_chunk_content e (create_token_manager model) content
          (count_tokens e full_system_prompt) (count_message_tokens e msgs.dropLast) = true
      · rw [if_pos hc] at hr
        injection hr with hr'
        subst hr'
        obtain ⟨hlen, hcnt⟩ := chunkedRebuild_props e model llm _ _ msgs content tool_call_id
        exact ⟨hlen, fun _ => hcnt⟩
      · rw [if_neg hc] at hr
        by_cases hm : should_summarize_moderate_content e (create_token_manager model)
            content = true
        · rw [if_pos hm] at hr
          injection hr with hr'
          subst hr'
          refine ⟨focusedRebuild_length e _ llm _ _ msgs content tool_call_id, ?_⟩
          intro hpath
          rw [toolOutputPath_def e model full_system_prompt msgs content tool_call_id hlast,
            if_neg hc, if_pos hm] at hpath
          cases hpath
        · rw [if_neg hm] at hr
          cases hr

/-- C5: the overflow decision is deterministic and checked in order —
chunked iff `should_chunk_content` (content tokens exceed the available
tokens or `max_chunk_tokens`); else focused iff
`should_summarize_moderate_content` (content tokens exceed
`moderate_content_tokens` = 8000); else pass-through, which is exactly when
`summarize_tool_output` returns no state change. -/
theorem C5_decision_order (e : Encoding τ) (llm : String → Except String String)
    (model full_system_prompt : String) (msgs : List AMsg) (content tool_call_id : String)
    (hlast : msgs.getLast? = some (.tool content tool_call_id)) :
    (toolOutputPath e model full_system_prompt msgs = .chunked ↔
      should_chunk_content e (create_token_manager model) content
        (count_tokens e full_system_prompt) (count_message_tokens e msgs.dropLast) = true) ∧
    (should_chunk_content e (create_token_manager model) content
        (count_tokens e full_system_prompt) (count_message_tokens e msgs.dropLast) = true ↔
      (get_available_tokens (create_token_manager model) (count_tokens e full_system_prompt)
          (count_message_tokens e msgs.dropLast) < count_tokens e content ∨
        (create_token_manager model).max_chunk_tokens < count_tokens e content)) ∧
    (toolOutputPath e model full_system_prompt msgs = .focused ↔
      (should_chunk_content e (create_token_manager model) content
          (count_tokens e full_system_prompt) (count_message_tokens e msgs.dropLast) = false ∧
        should_summarize_moderate_content e (create_token_manager model) content = true)) ∧
    (should_summarize_moderate_content e (create_token_manager model) content = true ↔
      AGENT_MODERATE_CONTENT_TOKENS < count_tokens e content) ∧
    (create_token_manager model).moderate_content_tokens = 8000 ∧
    (toolOutputPath e model full_system_prompt msgs = .passThrough ↔
      summarize_tool_output e llm model full_system_prompt msgs = none) := by
  have hp := toolOutputPath_def e model full_system_prompt msgs content tool_call_id hlast
  have hs := summarize_tool_output_def e llm model full_system_prompt msgs
    content tool_call_id hlast
  refine ⟨?_, ?_, ?_, ?_, rfl, ?_⟩
  · rw [hp]
    by_cases hc : should_chunk_content e (create_token_manager model) content
        (count_tokens e full_system_prompt) (count_message_tokens e msgs.dropLast) = true
      <;> by_cases hm : should_summarize_moderate_content e (create_token_manager model)
        content = true
      <;> simp [hc, hm]
  · simp [should_chunk_content, Bool.or_eq_true, decide_eq_true_eq]
  · rw [hp]
    by_cases hc : should_chunk_content e (create_token_manager model) content
        (count_tokens e full_system_prompt) (count_message_tokens e msgs.dropLast) = true
      <;> by_cases hm : should_summarize_moderate_content e (create_token_manager model)
        content = true
      <;> simp [hc, hm]
  · simp [should_summarize_moderate_content, decide_eq_true_eq]
    constructor <;> intro h <;> exact h
  · rw [hp, hs]
    by_cases hc : should_chunk_content e (create_token_manager model) content
        (count_tokens e full_system_prompt) (count_message_tokens e msgs.dropLast) = true
      <;> by_cases hm : should_summarize_moderate_content e (create_token_manager model)
        content = true
      <;> simp [hc, hm]

/-! Concrete agent-loop states exercising the summarizer paths. -/

/-- A tool output of 1900 tokens: over the `gpt-4` manager's
`max_chunk_tokens` of 1843, so the chunked path fires. -/
def exToolContentChunked : String := String.mk (List.replicate 1900 'a')

def exMsgsChunked : List AMsg :=
  [AMsg.system "", AMsg.human "hi", AMsg.tool exToolContentChunked "t1"]

/-- The context the chunked path rebuilds for `exMsgsChunked` under a
constant `"S"`-answering LLM (one chunk, no consolidation, no valve). -/
def exRebuiltChunked : List AMsg :=
  [AMsg.system minimalSystemChunked, AMsg.human "hi",
   AMsg.tool ("Comprehensive summary of tool output (1 chunks processed):\n\n**Chunk 1 Summary:**\nS") "t1"]

/-- `summarize_tool_output` takes the chunked path on `exMsgsChunked` and
produces `exRebuiltChunked` (one chunk, no consolidation, no valve). -/
theorem summarize_exMsgsChunked :
    summarize_tool_output charEncoding (fun _ => .ok "S") "gpt-4" "" exMsgsChunked
      = some exRebuiltChunked := by
  have hlast : exMsgsChunked.getLast? = some (.tool exToolContentChunked "t1") := rfl
  have h1900 : count_tokens charEncoding exToolContentChunked = 1900 := by
    rw [count_tokens_charEncoding]
    show (List.replicate 1900 'a').length = 1900
    exact List.length_replicate _ _
  have hc : should_chunk_content charEncoding (create_token_manager "gpt-4")
      exToolContentChunked (count_tokens charEncoding "")
      (count_message_tokens charEncoding exMsgsChunked.dropLast) = true := by
    simp only [should_chunk_content, h1900]
    decide
  have hchunks : chunk_content_with_size charEncoding exToolContentChunked
      ((create_token_manager "gpt-4").context_limit * 9 / 10) = [exToolContentChunked] := by
    simp only [chunk_content_with_size, h1900]
    rw [if_pos (by decide)]
  rw [summarize_tool_output_def charEncoding _ "gpt-4" "" exMsgsChunked
    exToolContentChunked "t1" hlast, hc, if_pos rfl]
  refine congrArg Option.some ?_
  simp only [chunkedRebuild, hchunks]
  decide

/-- Witness for C3 (amended) on the chunked path with the `gpt-4` manager. -/
theorem C3_minimal_rebuild_witness :
    exRebuiltChunked.length = 3 ∧
    (toolOutputPath charEncoding "gpt-4" "" exMsgsChunked = OverflowPath.chunked →
      count_message_tokens charEncoding exRebuiltChunked
        ≤ (create_token_manager "gpt-4").safe_context_limit) :=
  C3_minimal_rebuild charEncoding (fun _ => .ok "S") "gpt-4" "" exMsgsChunked
    exRebuiltChunked summarize_exMsgsChunked

/-- A tool output of 8001 tokens against `gpt-4o` (moderate threshold 8000,
`max_chunk_tokens` 28800): the focused path fires. -/
def exToolContentFocused : String := String.mk (List.replicate 8001 'a')

def exMsgsFocused : List AMsg :=
  [AMsg.system "", AMsg.human "hi", AMsg.tool exToolContentFocused "t2"]

/-- A focused-summary LLM answer of 120000 tokens (the LLM oracle is free;
nothing in the code bounds the summary's size). -/
def exBigSummary : String := String.mk (List.replicate 120000 'b')

/-- The context the focused path rebuilds for `exMsgsFocused`. -/
def exRebuiltFocused : List AMsg :=
  [AMsg.system minimalSystemFocused, AMsg.human "hi",
   AMsg.tool ("Focused summary of tool output:\n\n" ++ exBigSummary) "t2"]

/-- Counterexample to C3 as stated: on the focused-summary path the rebuilt
context is three messages but its token count (120000-token summary plus
framing, ≈120246 tokens) **exceeds** `safe_context_limit` = 115200 of
`gpt-4o` — the focused path has no safety valve, so the claimed bound
`count_message_tokens(rebuilt) ≤ safe_context_limit` is false. -/
theorem C3_counterexample :
    summarize_tool_output charEncoding (fun _ => .ok exBigSummary) "gpt-4o" "" exMsgsFocused
      = some exRebuiltFocused ∧
    toolOutputPath charEncoding "gpt-4o" "" exMsgsFocused = OverflowPath.focused ∧
    exRebuiltFocused.length = 3 ∧
    (create_token_manager "gpt-4o").safe_context_limit
      < count_message_tokens charEncoding exRebuiltFocused := by
  have hlast : exMsgsFocused.getLast? = some (.tool exToolContentFocused "t2") := rfl
  have h8001 : count_tokens charEncoding exToolContentFocused = 8001 := by
    rw [count_tokens_charEncoding]
    show (List.replicate 8001 'a').length = 8001
    exact List.length_replicate _ _
  have hc : should_chunk_content charEncoding (create_token_manager "gpt-4o")
      exToolContentFocused (count_tokens charEncoding "")
      (count_message_tokens charEncoding exMsgsFocused.dropLast) = false := by
    simp only [should_chunk_content, h8001]
    decide
  have hm : should_summarize_moderate_content charEncoding (create_token_manager "gpt-4o")
      exToolContentFocused = true := by
    simp only [should_summarize_moderate_content, h8001]
    decide
  have hfh : firstHumanContent exMsgsFocused = some "hi" := rfl
  have hbig : exBigSummary.length = 120000 := by
    show (List.replicate 120000 'b').length = 120000
    exact List.length_replicate _ _
  refine ⟨?_, ?_, rfl, ?_⟩
  · rw [summarize_tool_output_def charEncoding _ "gpt-4o" "" exMsgsFocused
      exToolContentFocused "t2" hlast, hc, hm]
    simp only [Bool.false_eq_true, if_false, if_true]
    simp only [focusedRebuild, hfh]
    rw [if_neg (by decide : ¬ (300 < ("hi" : String).length))]
    rfl
  · rw [toolOutputPath_def charEncoding "gpt-4o" "" exMsgsFocused
      exToolContentFocused "t2" hlast, hc, hm]
    simp
  · rw [show exRebuiltFocused = [AMsg.system minimalSystemFocused, AMsg.human "hi",
      AMsg.tool ("Focused summary of tool output:\n\n" ++ exBigSummary) "t2"] from rfl,
      count_message_tokens_three]
    have h1 : msgTok charEncoding (AMsg.system minimalSystemFocused)
        = minimalSystemFocused.length := by
      rw [msgTok, if_neg (by decide : ¬ (AMsg.system minimalSystemFocused).content = "")]
      exact count_tokens_charEncoding _
    have h2 : msgTok charEncoding
        (AMsg.tool ("Focused summary of tool output:

" ++ exBigSummary) "t2")
        = 120033 := by
      rw [msgTok]
      rw [if_neg ?_]
      · rw [count_tokens_charEncoding]
        show ("Focused summary of tool output:

" ++ exBigSummary).length = 120033
        rw [String.length_append, hbig]
        decide
      · show ¬ ("Focused summary of tool output:

" ++ exBigSummary) = ""
        intro hcontra
        have := congrArg String.length hcontra
        rw [String.length_append, hbig] at this
        simp at this
    have hls : minimalSystemFocused.length ≤ 400 := by decide
    rw [h2]
    have h3 : msgTok charEncoding (AMsg.human "hi") = 2 := by decide
    rw [h3, h1]
    have hsafe : (create_token_manager "gpt-4o").safe_context_limit = 115200 := by decide
    rw [hsafe]
    omega

def exMsgsSmall : List AMsg := [AMsg.system "sys", AMsg.human "hi", AMsg.tool "out" "t0"]

/-- Witness for C5 at a small pass-through state. -/
theorem C5_decision_order_witness :
    toolOutputPath charEncoding "gpt-4o-mini" "sys" exMsgsSmall = OverflowPath.passThrough ↔
      summarize_tool_output charEncoding (fun _ => .ok "r") "gpt-4o-mini" "sys" exMsgsSmall
        = none :=
  (C5_decision_order charEncoding (fun _ => .ok "r") "gpt-4o-mini" "sys" exMsgsSmall
    "out" "t0" (by decide)).2.2.2.2.2

end LifeLine
